import Mathlib

/-!
Verification of the wt-js-libs data-access layer against its
natural-language specification.

The development shallowly embeds the JavaScript sources:

* `src/src/off-chain-data-client.js` (adapter registry),
* `src/src/data-model/web3-uri/wt-index.js` (hotel index provider),
* `src/unnamed/part_002` = `on-chain-hotel.js` (OnChainHotel),
* `src/src/data-model/on-chain-airline.js` (OnChainAirline).

The `remotely-backed-dataset.js` and `storage-pointer.js` modules are not
part of the provided sources; where a claim depends on them they are
modelled from the specification (each such definition carries a doc
comment starting with `Modelled from the spec:`).

JavaScript exceptions are embedded as `Except JsError`; methods that can
mutate `this` before throwing return the post-state alongside the result,
so that atomicity statements are not true by construction.  Remote
collaborator calls (contract instantiation, adapter downloads, remote
setters) are counted explicitly so that laziness and memoization claims
are about observable effect counts.
-/

set_option autoImplicit false

namespace WtJsLibs

/-- The error kinds thrown by the embedded code (`src/errors.js` et al.). -/
inductive JsError where
  | inputDataError (msg : String)
  | smartContractInstantiationError (msg : String)
  | typeError (msg : String)
  | notDeployedError
  | obsoleteRecordError
  | remoteDataReadError (msg : String)
  | genericError (msg : String)
  deriving DecidableEq, Repr

/-- JavaScript truthiness of an optional string value:
`undefined` and the empty string are falsy, every other string is truthy. -/
def strTruthy : Option String → Bool
  | none => false
  | some s => !s.isEmpty

/-! ## OffChainDataClient (`src/src/off-chain-data-client.js`) -/

/-- ASCII lowercasing of a single character, as performed by
JavaScript `String.prototype.toLowerCase` on scheme strings. -/
def lowerChar (c : Char) : Char :=
  if 65 ≤ c.toNat ∧ c.toNat ≤ 90 then Char.ofNat (c.toNat + 32) else c

/-- Lowercasing of a scheme string (`key.toLowerCase()` /
`schema.toLowerCase()` in `off-chain-data-client.js`). -/
def toLowerAscii (s : String) : String :=
  ⟨s.data.map lowerChar⟩

/-- An adapter configuration (the `{options, create}` record registered
for a scheme); its identity is all the claims need, so it is abstract. -/
structure AdapterConfig where
  configId : Nat
  deriving DecidableEq, Repr

/-- The adapter registry built by `OffChainDataClient.setup`: an ordered
association of (already lowercased) scheme keys to configurations. -/
abbrev AdapterRegistry := List (String × AdapterConfig)

/-- Loop of `OffChainDataClient.setup` (lines 32-44): normalize every key
to lowercase, erroring out when two keys collide after normalization. -/
def setupLoop : List (String × AdapterConfig) → AdapterRegistry →
    Except JsError AdapterRegistry
  | [], acc => .ok acc
  | (k, v) :: rest, acc =>
    let nk := toLowerAscii k
    if acc.any (fun kv => kv.1 = nk) then
      .error (.genericError ("Adapter declared twice: " ++ nk))
    else
      setupLoop rest (acc ++ [(nk, v)])

/-- `OffChainDataClient.setup(options)`: builds the registry with
lowercased scheme keys. -/
def setup (options : List (String × AdapterConfig)) :
    Except JsError AdapterRegistry :=
  setupLoop options []

/-- Plain lookup of a scheme key in the registry (JS property access
`offChainDataOptions.adapters[schema]`). -/
def registryLookup (reg : AdapterRegistry) (key : String) :
    Option AdapterConfig :=
  (reg.find? (fun kv => kv.1 = key)).map (fun kv => kv.2)

/-- `OffChainDataClient.getAdapter(schema)` (lines 59-66): lowercases the
requested scheme, errors when the scheme is missing/empty or has no
registered adapter, otherwise returns the registered configuration. -/
def getAdapter (reg : AdapterRegistry) (schema : Option String) :
    Except JsError AdapterConfig :=
  match schema with
  | none => .error (.genericError "Unsupported data storage type: null")
  | some s0 =>
    if (toLowerAscii s0).isEmpty then
      .error (.genericError "Unsupported data storage type: null")
    else
      match registryLookup reg (toLowerAscii s0) with
      | none =>
        .error (.genericError ("Unsupported data storage type: " ++ toLowerAscii s0))
      | some a => .ok a

/-! ## Web3UriWTIndexDataProvider.getAllHotels
(`src/src/data-model/web3-uri/wt-index.js`, lines 149-168) -/

/-- `getAllHotels`, parametrized by the address list returned by the index
contract's `getHotels()` call, the zero-address test of `web3Utils`, and
the `getHotel` operation (which may reject).  Returns the overall result
together with the list of addresses on which `getHotel` was attempted.
The per-address `.catch` turns each rejection into `null` (here `none`)
before the nulls are filtered out. -/
def getAllHotels {H : Type} (hotelsAddressList : List String)
    (isZeroAddress : String → Bool)
    (getHotel : String → Except JsError H) :
    Except JsError (List H) × List String :=
  let filtered := hotelsAddressList.filter (fun addr => !isZeroAddress addr)
  let hotelDetails : List (Option H) :=
    filtered.map (fun addr =>
      match getHotel addr with
      | .ok h => some h
      | .error _ => none)
  let hotelList := hotelDetails.filterMap id
  (.ok hotelList, filtered)

/-! ## OnChainHotel (`src/unnamed/part_002` = `on-chain-hotel.js`) -/

/-- A character allowed in the scheme group `[a-z-]` of the dataUri
validation regex. -/
def isSchemeChar (c : Char) : Bool :=
  (97 ≤ c.toNat && c.toNat ≤ 122) || c = '-'

/-- Does this suffix start with the literal `://`? -/
def startsColonSlashSlash : List Char → Bool
  | ':' :: '/' :: '/' :: _ => true
  | _ => false

/-- Unanchored search for the regex `([a-z-]+):\/\/`: at each position, a
match needs a non-empty run of scheme characters immediately followed by
`://` (since `:` is not a scheme character, the maximal run is the only
candidate the regex engine can accept at a position). -/
def uriRegexSearch : List Char → Bool
  | [] => false
  | c :: rest =>
    (isSchemeChar c && startsColonSlashSlash ((c :: rest).dropWhile isSchemeChar))
      || uriRegexSearch rest

/-- `newDataUri.match(/([a-z-]+):\/\//)` from `set dataUri`
(`on-chain-hotel.js` line 140), as a Boolean test. -/
def matchesUriRegex (s : String) : Bool :=
  uriRegexSearch s.data

/-- The second guard of `set dataUri` (`on-chain-hotel.js` line 140):
`typeof newDataUri === 'string' && !newDataUri.match(/([a-z-]+):\/\//)`
(a non-string value passes the guard). -/
def invalidUriFormat : Option String → Bool
  | some s => !matchesUriRegex s
  | none => false

/-- Modelled from the spec: a Storage Pointer (`storage-pointer.js` is not
under `src/`).  `ref` is the URI the pointer was constructed with and is
immutable for a given instance; `resolvedContents` records whether its
document has been downloaded (memoized resolution state); `instanceId`
stands for JavaScript object identity, letting replacement-vs-update be
observed. -/
structure StoragePointer where
  ref : String
  resolvedContents : Bool
  instanceId : Nat
  deriving DecidableEq, Repr

/-- Modelled from the spec: resolving a Storage Pointer downloads and
memoizes its document but never mutates the `ref` view (the URI is
immutable for a given instance). -/
def resolveStoragePointer (p : StoragePointer) : StoragePointer :=
  { p with resolvedContents := true }

/-- The `OnChainHotel` instance state used by the hotel claims:
the on-chain backed `_dataUri` field cache, the `_dataIndex` Storage
Pointer cache, the memoized web3 `contractInstance`, and the hotel
address.  `nextId` is the allocator for Storage Pointer identities. -/
structure OnChainHotel where
  address : Option String
  _dataUri : Option String
  _manager : Option String
  _dataIndex : Option StoragePointer
  contractInstance : Option String
  nextId : Nat
  deriving DecidableEq, Repr

/-- The `dataUri` getter (`on-chain-hotel.js` lines 123-132): `undefined`
when the backing field is falsy, otherwise the awaited field value. -/
def dataUriValue (h : OnChainHotel) : Option String :=
  if strTruthy h._dataUri then h._dataUri else none

/-- The `dataUri` setter (`on-chain-hotel.js` lines 134-150).  Returns the
JS result (normal return or thrown error) together with the post-state:
a throw leaves whatever mutations already happened in place, so atomicity
is a statement about this function, not a modelling artifact.  The two
validity checks precede both mutations; a new value different from the
cached one drops the `_dataIndex` pointer before the field is assigned. -/
def set_dataUri (h : OnChainHotel) (newDataUri : Option String) :
    Except JsError Unit × OnChainHotel :=
  if !strTruthy newDataUri then
    (.error (.inputDataError
      "Cannot update hotel: Cannot set dataUri when it is not provided"), h)
  else if invalidUriFormat newDataUri then
    (.error (.inputDataError
      "Cannot update hotel: Cannot set dataUri with invalid format"), h)
  else
    let h1 := if newDataUri ≠ h._dataUri then { h with _dataIndex := none } else h
    (.ok (), { h1 with _dataUri := newDataUri })

/-- The `dataIndex` getter (`on-chain-hotel.js` lines 95-121): when no
Storage Pointer is cached, construct one over `await this.dataUri`
(`StoragePointer.createInstance` is modelled from the spec: construction
stores the URI and performs no download) and cache it; otherwise return
the cached instance.  The `Nat` counts Storage Pointer constructions. -/
def getDataIndex (h : OnChainHotel) :
    Except JsError StoragePointer × OnChainHotel × Nat :=
  match h._dataIndex with
  | some p => (.ok p, h, 0)
  | none =>
    match dataUriValue h with
    | some uri =>
      let p : StoragePointer :=
        { ref := uri, resolvedContents := false, instanceId := h.nextId }
      (.ok p, { h with _dataIndex := some p, nextId := h.nextId + 1 }, 1)
    | none =>
      (.error (.inputDataError
        "Cannot instantiate StoragePointer without uri"), h, 0)

/-- Resolving the contents of the cached `dataIndex` pointer: the stored
pointer memoizes its downloaded document in place; its `ref` never
changes (Storage Pointer behaviour modelled from the spec). -/
def resolveStoredDataIndex (h : OnChainHotel) : OnChainHotel :=
  match h._dataIndex with
  | some p => { h with _dataIndex := some (resolveStoragePointer p) }
  | none => h

/-- `OnChainHotel.__getContractInstance` (`on-chain-hotel.js` lines
222-230): throws without an address; otherwise memoizes the result of the
`web3Contracts.getHotelInstance` collaborator call in
`this.contractInstance`.  The `Nat` counts collaborator calls. -/
def hotelGetContractInstance (h : OnChainHotel) :
    Except JsError String × OnChainHotel × Nat :=
  if !strTruthy h.address then
    (.error (.genericError "Cannot get hotel instance without address"), h, 0)
  else
    match h.contractInstance with
    | some ci => (.ok ci, h, 0)
    | none =>
      match h.address with
      | some addr =>
        (.ok addr, { h with contractInstance := some addr }, 1)
      | none => (.error (.genericError "Cannot get hotel instance without address"), h, 0)

/-- The invariant tying the cached Storage Pointer to the `_dataUri`
field: whenever a pointer is cached, it was constructed over the value
currently stored in `_dataUri`. -/
def DataIndexInv (h : OnChainHotel) : Prop :=
  ∀ p : StoragePointer, h._dataIndex = some p →
    h._dataUri = some p.ref ∧ ¬ p.ref.isEmpty

/-- All allocated Storage Pointer identities are below the allocator. -/
def IdBound (h : OnChainHotel) : Prop :=
  ∀ p : StoragePointer, h._dataIndex = some p → p.instanceId < h.nextId

/-! ## RemotelyBackedDataset
(`remotely-backed-dataset.js` is not under `src/`; the dataset is
modelled from the specification, sections 3, 4.1 and 4.2.) -/

/-- Modelled from the spec: the dataset lifecycle state machine
(`NotDeployed` initial, `Deployed`, `Obsolete` terminal). -/
inductive LifecycleState where
  | notDeployed
  | deployed
  | obsolete
  deriving DecidableEq, Repr

/-- Modelled from the spec: one Field Binding of a Remotely-Backed
Dataset.  `setterId` is the identity of the bound `remoteSetter`
capability (`none` for read-only fields); `value` is the cached value and
`isDirty` the dirty flag. -/
structure FieldBinding where
  name : String
  value : Option String
  isDirty : Bool
  setterId : Option Nat
  deriving DecidableEq, Repr

/-- Modelled from the spec: a Remotely-Backed Dataset owns a lifecycle
state and a mapping from field name to Field Binding. -/
structure Dataset where
  state : LifecycleState
  fields : List FieldBinding
  deriving DecidableEq, Repr

/-- Modelled from the spec: one prepared-operation descriptor, produced by
invoking one distinct remote setter with the full set of dirty field
name/value pairs assigned to it.  One descriptor = one setter
invocation. -/
structure PreparedOperation where
  setterId : Nat
  payload : List (String × Option String)
  deriving DecidableEq, Repr

/-- First occurrences of a list of setter identities, in order. -/
def firstOccurrences : List Nat → List Nat
  | [] => []
  | x :: xs => x :: firstOccurrences (xs.filter (fun y => y ≠ x))
termination_by l => l.length
decreasing_by
  simp only [List.length_cons]
  exact Nat.lt_succ_of_le (List.length_filter_le _ _)

/-- Modelled from the spec: `RemotelyBackedDataset.updateRemoteData`
(Commit).  Fails fast with `NotDeployedError` when the state is not
`Deployed`; otherwise groups the dirty fields by the identity of their
`remoteSetter` (fields with no setter are silently skipped) and invokes
each distinct setter exactly once with the dirty name/value pairs
assigned to it, yielding one prepared-operation descriptor per
invocation. -/
def updateRemoteData (d : Dataset) : Except JsError (List PreparedOperation) :=
  if d.state = .deployed then
    let dirty := d.fields.filter (fun f => f.isDirty && f.setterId.isSome)
    let setterIds := firstOccurrences (dirty.filterMap (fun f => f.setterId))
    .ok (setterIds.map (fun i =>
      { setterId := i,
        payload := (dirty.filter (fun f => f.setterId = some i)).map
          (fun f => (f.name, f.value)) }))
  else
    .error .notDeployedError

/-! ## OnChainAirline (`src/src/data-model/on-chain-airline.js`) -/

/-- The `OnChainAirline` instance state: address, memoized contract
instance, and the remotely backed dataset holding `_endpoint`,
`_manager` and `_token`. -/
structure OnChainAirline where
  address : Option String
  contractInstance : Option String
  dataset : Dataset
  deriving DecidableEq, Repr

/-- `OnChainAirline._getContractInstance` (lines 183-191): throws
`SmartContractInstantiationError` without an address; otherwise memoizes
the `web3Contracts.getAirlineInstance` collaborator call.  The `Nat`
counts collaborator calls. -/
def airlineGetContractInstance (a : OnChainAirline) :
    Except JsError String × OnChainAirline × Nat :=
  if !strTruthy a.address then
    (.error (.smartContractInstantiationError
      "Cannot get airline instance without address"), a, 0)
  else
    match a.contractInstance with
    | some ci => (.ok ci, a, 0)
    | none =>
      match a.address with
      | some addr => (.ok addr, { a with contractInstance := some addr }, 1)
      | none =>
        (.error (.smartContractInstantiationError
          "Cannot get airline instance without address"), a, 0)

/-- `OnChainAirline.updateOnChainData` (lines 262-268): first the fail-fast
pre-check `await this._getContractInstance()`, then
`this.onChainDataset.updateRemoteData(...)`.  The `Nat` counts remote
setter invocations (one per produced descriptor). -/
def updateOnChainData (a : OnChainAirline) :
    Except JsError (List PreparedOperation × OnChainAirline) × Nat :=
  match airlineGetContractInstance a with
  | (.error e, _, _) => (.error e, 0)
  | (.ok _, a1, _) =>
    match updateRemoteData a1.dataset with
    | .error e => (.error e, 0)
    | .ok ops => (.ok (ops, a1), ops.length)

/-- The transaction data produced by `removeOnChainData` for the
`deleteAirline` index-contract call (collaborator outputs abstracted to
the airline address they are about). -/
structure RemovalDescriptor where
  airlineAddress : Option String
  deriving DecidableEq, Repr

/-- `OnChainAirline.removeOnChainData` (lines 315-338): throws
`SmartContractInstantiationError` when the dataset is not deployed,
otherwise prepares the `deleteAirline` transaction descriptor.  No field
remote setter is ever invoked by this operation. -/
def removeOnChainData (a : OnChainAirline) :
    Except JsError RemovalDescriptor :=
  if a.dataset.state = .deployed then
    .ok { airlineAddress := a.address }
  else
    .error (.smartContractInstantiationError "Cannot remove airline: not deployed")

/-- Modelled from the spec: assigning to a dataset-bound field
(`this._endpoint = ...` under `bindProperties`) caches the value locally
and marks the field dirty; no remote store is contacted. -/
def assignField (d : Dataset) (name : String) (v : Option String) : Dataset :=
  { d with fields := d.fields.map (fun f =>
      if f.name = name then { f with value := v, isDirty := true } else f) }

/-- The `endpoint` setter (`on-chain-airline.js` lines 106-119), over
string-or-undefined inputs.  As written in the source, a falsy value
throws, and then a value of string type throws
(`typeof newEndpoint === 'string'`) with the message
"... invalid type, must be string"; only a truthy non-string (e.g. a
promise) would reach the assignment. -/
def setEndpoint (a : OnChainAirline) (newEndpoint : Option String) :
    Except JsError Unit × OnChainAirline :=
  if !strTruthy newEndpoint then
    (.error (.inputDataError
      "Cannot update airline: Cannot set endpoint when it is not provided"), a)
  else if newEndpoint.isSome then
    (.error (.inputDataError
      "Cannot update airline: Cannot set endpoint with invalid type, must be string"), a)
  else
    (.ok (), { a with dataset := assignField a.dataset "_endpoint" newEndpoint })

/-- The `token` setter (`on-chain-airline.js` lines 151-160), over
string-or-undefined inputs.  As written in the source, a falsy value
throws and a value of string type throws; the assignment
`this._token = newToken` sits inside the `typeof ... === 'string'` block
after the `throw`, so it is unreachable and a truthy non-string leaves
the state unchanged. -/
def setToken (a : OnChainAirline) (newToken : Option String) :
    Except JsError Unit × OnChainAirline :=
  if !strTruthy newToken then
    (.error (.inputDataError "Cannot update airline: Cannot set token to null"), a)
  else if newToken.isSome then
    (.error (.inputDataError
      "Cannot update airline: Cannot set airline endpoint with invalid type, must be string"), a)
  else
    (.ok (), a)

/-- The instance methods defined by the `OnChainAirline` class
(`on-chain-airline.js`): the names on which `this.<name>.bind(this)` can
succeed inside `initialize`. -/
def onChainAirlineMethodNames : List String :=
  ["initialize", "setLocalData", "_getContractInstance",
   "_editEndpointOnChain", "createOnChainData", "updateOnChainData",
   "transferOnChainOwnership", "removeOnChainData"]

/-- Evaluation of `this.<name>.bind(this)` inside the `fields` literal of
`initialize` (lines 67-94): looking up a name the class does not define
yields `undefined`, and accessing `.bind` on `undefined` throws a
`TypeError`. -/
def bindMethod (name : String) : Except JsError String :=
  if name ∈ onChainAirlineMethodNames then
    .ok name
  else
    .error (.typeError
      ("Cannot read property bind of undefined: this." ++ name))

/-- `OnChainAirline.initialize` (lines 67-94): builds the bound dataset.
Evaluating the `fields` object literal evaluates
`this._editInfoOnChain.bind(this)` for `_endpoint` and again for
`_token` before `bindProperties` is called; when this stage throws, the
dataset is never bound.  On success the dataset is marked deployed iff
an address is present. -/
def airlineInitialize (a : OnChainAirline) : Except JsError OnChainAirline :=
  match bindMethod "_editInfoOnChain" with
  | .error e => .error e
  | .ok s1 =>
    match bindMethod "_editInfoOnChain" with
    | .error e => .error e
    | .ok s2 =>
      .ok { a with dataset :=
        { state := if strTruthy a.address then .deployed else .notDeployed,
          fields :=
            [{ name := "_endpoint", value := none, isDirty := false,
               setterId := some (onChainAirlineMethodNames.indexOf s1) },
             { name := "_manager", value := none, isDirty := false,
               setterId := none },
             { name := "_token", value := none, isDirty := false,
               setterId := some (onChainAirlineMethodNames.indexOf s2) }] } }

/-- `OnChainAirline.createInstance` (lines 48-52): constructor followed by
`initialize()`. -/
def airlineCreateInstance (address : Option String) :
    Except JsError OnChainAirline :=
  airlineInitialize
    { address := address, contractInstance := none,
      dataset := { state := .notDeployed, fields := [] } }

/-! ## StoragePointer.toPlainObject
(`storage-pointer.js` is not under `src/`; the document graph and the
selective-materialization recursion are modelled from the specification,
section 4.3.  `OnChainHotel.toPlainObject` itself is the source function
at `on-chain-hotel.js` lines 211-220.) -/

/-- Modelled from the spec: a value inside a resolved document — either a
raw value or a schema-declared nested Storage Pointer, i.e. a URI plus
the document stored behind it. -/
inductive JVal where
  | raw (s : String)
  | ptr (uri : String) (doc : List (String × JVal))

/-- Modelled from the spec: a value in the output of `toPlainObject` — a
raw value, an unresolved pointer object `{ref, contents: <lazy>}`, or an
inlined pointer `{ref, contents}` with its contents materialized. -/
inductive PVal where
  | raw (s : String)
  | unresolved (ref : String)
  | resolved (ref : String) (contents : List (String × PVal))

mutual

/-- Modelled from the spec: exhaustive recursive materialization of one
value (the default path of `toPlainObject` with no `resolvedFields`). -/
def resolveAllVal : JVal → PVal
  | .raw s => .raw s
  | .ptr u d => .resolved u (resolveAllDoc d)

/-- Modelled from the spec: exhaustive recursive materialization of a
document — every declared pointer is inlined. -/
def resolveAllDoc : List (String × JVal) → List (String × PVal)
  | [] => []
  | (n, v) :: rest => (n, resolveAllVal v) :: resolveAllDoc rest

end

/-- The tails of the requested dot-paths that continue below field `n`. -/
def pathsFor (n : String) (paths : List (List String)) : List (List String) :=
  (paths.filter (fun p => p.head? = some n)).map List.tail

/-- Splitting a dot-notation path (`father.son.child`) into its segments,
character by character. -/
def splitPathChars : List Char → List (List Char)
  | [] => [[]]
  | c :: rest =>
    if c = '.' then [] :: splitPathChars rest
    else
      match splitPathChars rest with
      | [] => [[c]]
      | seg :: segs => (c :: seg) :: segs

/-- A dot-notation path as the list of its field-name segments. -/
def splitPath (s : String) : List String :=
  (splitPathChars s.data).map (fun l => ⟨l⟩)

mutual

/-- Modelled from the spec: materialization of one document entry value.
`tails` holds the remainders of the requested paths that name the field
this value sits at (empty `tails` means the field is on no requested
path).  A pointer on a requested path is inlined — fully when some path
ends at this field (everything below the last named segment is resolved
recursively), otherwise selectively along the remaining path tails; a
pointer not on any requested path stays an unresolved `{ref, contents}`
object. -/
def toPlainEntry (v : JVal) (tails : List (List String)) : PVal :=
  match v with
  | .raw s => .raw s
  | .ptr u d =>
    match tails with
    | [] => .unresolved u
    | _ :: _ =>
      if tails.any List.isEmpty then .resolved u (resolveAllDoc d)
      else .resolved u (toPlainDoc d tails)

/-- Modelled from the spec: selective materialization of a document given
the requested dot-separated paths. -/
def toPlainDoc : List (String × JVal) → List (List String) →
    List (String × PVal)
  | [], _ => []
  | (n, v) :: rest, paths =>
    (n, toPlainEntry v (pathsFor n paths)) :: toPlainDoc rest paths

end

/-- Modelled from the spec: `StoragePointer.toPlainObject(resolvedFields)`
on a pointer with URI `uri` whose document is `doc`.  Omitted
`resolvedFields` materializes everything; otherwise the dot-notation
paths are split on `.` and drive the selective recursion.  The result is
the pointer's own `{ref, contents}` view. -/
def spToPlainObject (uri : String) (doc : List (String × JVal))
    (resolvedFields : Option (List String)) : PVal :=
  match resolvedFields with
  | none => .resolved uri (resolveAllDoc doc)
  | some fs => .resolved uri (toPlainDoc doc (fs.map splitPath))

/-- The property names of the plain-object literal built by
`OnChainHotel.toPlainObject` (`on-chain-hotel.js` lines 214-218):
`{ manager: ..., address: ..., dataUri: ... }`. -/
def plainHotelKeys : List String := ["manager", "address", "dataUri"]

/-- The result record of `OnChainHotel.toPlainObject`. -/
structure PlainHotel where
  manager : Option String
  address : Option String
  dataUri : PVal

/-- The `manager` getter value (`on-chain-hotel.js` lines 152-161):
`undefined` when the backing field is falsy. -/
def managerValue (h : OnChainHotel) : Option String :=
  if strTruthy h._manager then h._manager else none

/-- `OnChainHotel.toPlainObject(resolvedFields)` (lines 211-220): awaits
`this.dataIndex`, materializes its contents via the Storage Pointer's
`toPlainObject`, and returns the plain `{manager, address, dataUri}`
record.  `doc` is the document stored at the pointer's URI (adapter
download collaborator). -/
def hotelToPlainObject (h : OnChainHotel) (doc : List (String × JVal))
    (resolvedFields : Option (List String)) : Except JsError PlainHotel :=
  match getDataIndex h with
  | (.error e, _, _) => .error e
  | (.ok p, h1, _) =>
    .ok { manager := managerValue h1, address := h1.address,
          dataUri := spToPlainObject p.ref doc resolvedFields }

mutual

/-- Is a materialized value free of unresolved pointers? -/
def pvalFullyResolved : PVal → Bool
  | .raw _ => true
  | .unresolved _ => false
  | .resolved _ c => pdocFullyResolved c

/-- Is a materialized document free of unresolved pointers? -/
def pdocFullyResolved : List (String × PVal) → Bool
  | [] => true
  | (_, v) :: rest => pvalFullyResolved v && pdocFullyResolved rest

end

/-- The deployed airline state the C3 evaluation uses: address present,
dataset deployed, fields bound as `initialize` would have bound them. -/
def demoAirline : OnChainAirline :=
  { address := some "0xbf18b616ac81830dd0c5d4b771f22fd8144fe769",
    contractInstance := none,
    dataset := { state := .deployed, fields :=
      [{ name := "_endpoint", value := none, isDirty := false, setterId := some 3 },
       { name := "_manager", value := none, isDirty := false, setterId := none },
       { name := "_token", value := none, isDirty := false, setterId := some 3 }] } }

/-- A deployed hotel state used by the concrete witnesses: loaded from the
index with a cached `dataIndex` pointer over its current `dataUri`. -/
def demoHotel : OnChainHotel :=
  { address := some "0xbf18b616ac81830dd0c5d4b771f22fd8144fe769",
    _dataUri := some "in-memory://urlone",
    _manager := some "0xd39ca7d186a37bb6bf48ae8abfeb4c687dc8f906",
    _dataIndex := some { ref := "in-memory://urlone", resolvedContents := false,
                         instanceId := 0 },
    contractInstance := none,
    nextId := 1 }

/-! ## Helper lemmas -/

theorem lowerChar_idem (c : Char) : lowerChar (lowerChar c) = lowerChar c := by
  by_cases h : 65 ≤ c.toNat ∧ c.toNat ≤ 90
  · unfold lowerChar
    rw [if_pos h]
    obtain ⟨h1, h2⟩ := h
    set n := c.toNat with hn
    interval_cases n <;> decide
  · have hc : lowerChar c = c := by unfold lowerChar; rw [if_neg h]
    simp only [hc]

theorem toLowerAscii_idem (s : String) :
    toLowerAscii (toLowerAscii s) = toLowerAscii s := by
  unfold toLowerAscii
  simp [List.map_map, Function.comp_def, lowerChar_idem]

theorem toLowerAscii_eq_empty (s : String) : toLowerAscii s = "" ↔ s = "" := by
  constructor
  · intro h
    have hd : s.data.map lowerChar = ([] : List Char) := congrArg String.data h
    have hdata : s.data = [] := List.map_eq_nil_iff.mp hd
    cases s with
    | mk d =>
      simp only [String.data] at hdata
      rw [hdata]
  · intro h
    rw [h]
    rfl

/-- In a registry produced by `setupLoop`, every key is its own lowercase
form provided the accumulator's keys already are. -/
theorem setupLoop_keys_lower
    (options : List (String × AdapterConfig)) :
    ∀ (acc reg : AdapterRegistry), setupLoop options acc = .ok reg →
      (∀ kv ∈ acc, toLowerAscii kv.1 = kv.1) →
      ∀ kv ∈ reg, toLowerAscii kv.1 = kv.1 := by
  induction options with
  | nil =>
    intro acc reg h hacc
    simp only [setupLoop] at h
    cases h
    exact hacc
  | cons kv rest ih =>
    intro acc reg h hacc
    obtain ⟨k, v⟩ := kv
    simp only [setupLoop] at h
    split at h
    · cases h
    · refine ih _ _ h ?_
      intro kv hkv
      rcases List.mem_append.mp hkv with hl | hr
      · exact hacc kv hl
      · have : kv = (toLowerAscii k, v) := by simpa using hr
        rw [this]
        exact toLowerAscii_idem k

/-! ## The claims -/

/-- C6: For every adapter registry configured via `OffChainDataClient.setup`
and every scheme string `s`, adapter lookup is case-insensitive:
`getAdapter(s)` resolves to the adapter registered under the lowercase
form of `s` (every registered key is already lowercase, and for non-empty
`s` success of `getAdapter` is exactly a registry hit at `toLowerAscii s`),
so any two casings of the same scheme yield the same adapter
configuration. -/
theorem claim6_adapter_lookup_case_insensitive
    (options : List (String × AdapterConfig)) (reg : AdapterRegistry)
    (hsetup : setup options = .ok reg) :
    (∀ s : String, getAdapter reg (some s) = getAdapter reg (some (toLowerAscii s)))
    ∧ (∀ s₁ s₂ : String, toLowerAscii s₁ = toLowerAscii s₂ →
        getAdapter reg (some s₁) = getAdapter reg (some s₂))
    ∧ (∀ kv ∈ reg, toLowerAscii kv.1 = kv.1)
    ∧ (∀ s : String, s ≠ "" → ∀ a : AdapterConfig,
        (getAdapter reg (some s) = .ok a ↔
          registryLookup reg (toLowerAscii s) = some a)) := by
  refine ⟨?_, ?_, ?_, ?_⟩
  · intro s
    simp only [getAdapter, toLowerAscii_idem]
  · intro s₁ s₂ h
    simp only [getAdapter, h]
  · exact setupLoop_keys_lower options [] reg hsetup (by intro kv h; cases h)
  · intro s hs a
    have hne : (toLowerAscii s).isEmpty = false := by
      rw [← Bool.not_eq_true]
      intro hcon
      exact hs ((toLowerAscii_eq_empty s).mp ((String.isEmpty_iff _).mp hcon))
    simp only [getAdapter, hne, Bool.false_eq_true, if_false]
    cases hfind : registryLookup reg (toLowerAscii s) with
    | none => simp [hfind]
    | some b => simp [hfind]

/-- C6 witness: a concrete registry set up with a mixed-case key, queried
with another casing. -/
theorem claim6_witness :
    (∀ s : String,
      getAdapter [("ipfs", ⟨7⟩)] (some s) =
        getAdapter [("ipfs", ⟨7⟩)] (some (toLowerAscii s)))
    ∧ (∀ s₁ s₂ : String, toLowerAscii s₁ = toLowerAscii s₂ →
        getAdapter [("ipfs", ⟨7⟩)] (some s₁) =
          getAdapter [("ipfs", ⟨7⟩)] (some s₂))
    ∧ (∀ kv ∈ ([("ipfs", ⟨7⟩)] : AdapterRegistry), toLowerAscii kv.1 = kv.1)
    ∧ (∀ s : String, s ≠ "" → ∀ a : AdapterConfig,
        (getAdapter [("ipfs", ⟨7⟩)] (some s) = .ok a ↔
          registryLookup [("ipfs", ⟨7⟩)] (toLowerAscii s) = some a)) :=
  claim6_adapter_lookup_case_insensitive [("IPFS", ⟨7⟩)] [("ipfs", ⟨7⟩)] (by rfl)

/-- C9: For every successful `getHotels()` result,
`Web3UriWTIndexDataProvider.getAllHotels` resolves (never rejects):
zero addresses are dropped before any `getHotel` attempt (the attempted
list is exactly the non-zero filter of the contract's list, in order),
every address whose `getHotel` rejects is silently dropped, and the
result is exactly the instantiable hotels in the contract's order. -/
theorem claim9_getAllHotels_never_rejects {H : Type} (addrs : List String)
    (isZero : String → Bool) (getHotel : String → Except JsError H) :
    (getAllHotels addrs isZero getHotel).1 =
      .ok ((addrs.filter (fun a => !isZero a)).filterMap
        (fun a => (getHotel a).toOption))
    ∧ (getAllHotels addrs isZero getHotel).2 = addrs.filter (fun a => !isZero a)
    ∧ (∀ a ∈ (getAllHotels addrs isZero getHotel).2, isZero a = false) := by
  refine ⟨?_, rfl, ?_⟩
  · simp only [getAllHotels, List.filterMap_map]
    congr 1
    apply List.filterMap_congr
    intro a _
    simp only [Function.comp_apply, id_eq]
    cases h : getHotel a <;> rfl
  · intro a ha
    simp only [getAllHotels, List.mem_filter] at ha
    simpa using ha.2

/-- C10: The `OnChainHotel` `dataUri` setter is atomic on failure:
an empty/undefined value throws, a string without the `scheme://` shape
throws, and in every throwing case both `_dataUri` and `_dataIndex` (the
whole hotel state) are left unchanged. -/
theorem claim10_set_dataUri_atomic_on_failure (h : OnChainHotel)
    (v : Option String) :
    (strTruthy v = false →
      set_dataUri h v = (.error (.inputDataError
        "Cannot update hotel: Cannot set dataUri when it is not provided"), h))
    ∧ (∀ s : String, v = some s → matchesUriRegex s = false →
        ∃ e, set_dataUri h v = (.error e, h))
    ∧ (∀ e, (set_dataUri h v).1 = .error e → (set_dataUri h v).2 = h) := by
  refine ⟨?_, ?_, ?_⟩
  · intro hv
    simp [set_dataUri, hv]
  · intro s hs hm
    subst hs
    by_cases he : strTruthy (some s)
    · exact ⟨.inputDataError "Cannot update hotel: Cannot set dataUri with invalid format",
        by simp [set_dataUri, he, invalidUriFormat, hm]⟩
    · exact ⟨.inputDataError "Cannot update hotel: Cannot set dataUri when it is not provided",
        by simp [set_dataUri, he]⟩
  · intro e herr
    by_cases h1 : strTruthy v
    · by_cases h2 : invalidUriFormat v
      · simp [set_dataUri, h1, h2]
      · simp [set_dataUri, h1, h2] at herr
    · simp [set_dataUri, h1]

/-- A matching dataUri is in particular non-empty. -/
theorem matchesUriRegex_ne_empty (s : String) (hm : matchesUriRegex s = true) :
    s.isEmpty = false := by
  cases hs : s.data with
  | nil =>
    exfalso
    unfold matchesUriRegex at hm
    rw [hs] at hm
    simp [uriRegexSearch] at hm
  | cons c rest =>
    rw [← Bool.not_eq_true]
    intro hc
    have hemp : s = "" := (String.isEmpty_iff _).mp hc
    rw [hemp] at hs
    exact List.noConfusion hs

/-- C4: Assigning a `dataUri` different from the cached one drops the
cached `_dataIndex`, so that the next `dataIndex` access constructs a
fresh `StoragePointer` over the new URI (a genuinely new instance, not
the dropped one mutated in place); assigning a value equal to the cached
one preserves the existing `StoragePointer` instance. -/
theorem claim4_dataUri_write_invalidates_dataIndex (h : OnChainHotel)
    (v : String) (hm : matchesUriRegex v = true)
    (hdiff : some v ≠ h._dataUri) :
    ((set_dataUri h (some v)).1 = .ok ()
      ∧ (set_dataUri h (some v)).2._dataIndex = none
      ∧ (set_dataUri h (some v)).2._dataUri = some v)
    ∧ (∀ (p : StoragePointer) (h2 : OnChainHotel) (n : Nat),
        getDataIndex (set_dataUri h (some v)).2 = (.ok p, h2, n) →
          p.ref = v ∧ n = 1 ∧ p.resolvedContents = false
          ∧ (∀ p0 : StoragePointer, h._dataIndex = some p0 →
              p0.instanceId < h.nextId → p ≠ p0))
    ∧ (∀ u : String, h._dataUri = some u → matchesUriRegex u = true →
        (set_dataUri h (some u)).1 = .ok ()
        ∧ (set_dataUri h (some u)).2._dataIndex = h._dataIndex) := by
  have hne := matchesUriRegex_ne_empty v hm
  have ht : strTruthy (some v) = true := by simp [strTruthy, hne]
  have hf : invalidUriFormat (some v) = false := by simp [invalidUriFormat, hm]
  have hset : set_dataUri h (some v) =
      (.ok (), { h with _dataIndex := none, _dataUri := some v }) := by
    simp [set_dataUri, ht, hf, hdiff]
  refine ⟨?_, ?_, ?_⟩
  · rw [hset]
    exact ⟨rfl, rfl, rfl⟩
  · intro p h2 n hg
    rw [hset] at hg
    have hu : dataUriValue { h with _dataIndex := none, _dataUri := some v } = some v := by
      simp [dataUriValue, strTruthy, hne]
    simp only [getDataIndex, hu] at hg
    have hpe : Except.ok (⟨v, false, h.nextId⟩ : StoragePointer) = Except.ok p :=
      congrArg Prod.fst hg
    have hn : (1 : Nat) = n := congrArg (fun t => t.2.2) hg
    injection hpe with hp
    refine ⟨by rw [← hp], hn.symm, by rw [← hp], ?_⟩
    intro p0 hp0 hlt heqp
    rw [← hp] at heqp
    have : h.nextId = p0.instanceId := congrArg StoragePointer.instanceId heqp
    omega
  · intro u hu hmu
    have hneu := matchesUriRegex_ne_empty u hmu
    have htu : strTruthy (some u) = true := by simp [strTruthy, hneu]
    have hfu : invalidUriFormat (some u) = false := by simp [invalidUriFormat, hmu]
    have heq : ¬ (some u ≠ h._dataUri) := by simp [hu]
    simp [set_dataUri, htu, hfu, heq]

/-- C5: Two sequential reads with no intervening write issue exactly one
remote fetch: a successful `_getContractInstance` /
`__getContractInstance` call makes at most one contract-instantiation
collaborator call and a repeated call on the resulting state returns the
same instance with zero further calls (exactly one call in total when the
cache starts empty); likewise a repeated `dataIndex` access constructs at
most one `StoragePointer` and returns the same instance the second
time. -/
theorem claim5_sequential_reads_memoized (a : OnChainAirline)
    (h : OnChainHotel) :
    (∀ (ci : String) (a1 : OnChainAirline) (n : Nat),
      airlineGetContractInstance a = (.ok ci, a1, n) →
        n ≤ 1 ∧ airlineGetContractInstance a1 = (.ok ci, a1, 0))
    ∧ (a.contractInstance = none → strTruthy a.address = true →
        ∃ ci a1, airlineGetContractInstance a = (.ok ci, a1, 1))
    ∧ (∀ (ci : String) (h1 : OnChainHotel) (n : Nat),
        hotelGetContractInstance h = (.ok ci, h1, n) →
          n ≤ 1 ∧ hotelGetContractInstance h1 = (.ok ci, h1, 0))
    ∧ (∀ (p : StoragePointer) (h1 : OnChainHotel) (n : Nat),
        getDataIndex h = (.ok p, h1, n) →
          n ≤ 1 ∧ getDataIndex h1 = (.ok p, h1, 0)) := by
  refine ⟨?_, ?_, ?_, ?_⟩
  · intro ci a1 n hg
    by_cases ht : strTruthy a.address
    · cases hci : a.contractInstance with
      | some c =>
        simp only [airlineGetContractInstance, ht, hci, Bool.not_true,
          Bool.false_eq_true, if_false] at hg
        obtain ⟨h1eq, h2eq, h3eq⟩ :
            (Except.ok c : Except JsError String) = .ok ci ∧ a = a1 ∧ 0 = n := by
          refine ⟨congrArg Prod.fst hg, ?_, congrArg (fun t => t.2.2) hg⟩
          exact congrArg (fun t => t.2.1) hg
        injection h1eq with hc
        subst h2eq h3eq hc
        constructor
        · omega
        · simp [airlineGetContractInstance, ht, hci]
      | none =>
        cases haddr : a.address with
        | none => rw [haddr] at ht; simp [strTruthy] at ht
        | some addr =>
          rw [haddr] at ht
          simp only [airlineGetContractInstance, ht, hci, haddr, Bool.not_true,
            Bool.false_eq_true, if_false] at hg
          have h1eq : (Except.ok addr : Except JsError String) = .ok ci :=
            congrArg Prod.fst hg
          have h2eq : OnChainAirline.mk (some addr) (some addr) a.dataset = a1 :=
            congrArg (fun t => t.2.1) hg
          have h3eq : (1 : Nat) = n := congrArg (fun t => t.2.2) hg
          injection h1eq with hc
          subst h2eq h3eq hc
          constructor
          · omega
          · simp [airlineGetContractInstance, ht]
    · simp only [airlineGetContractInstance, ht] at hg
      exact absurd (congrArg Prod.fst hg) (by simp)
  · intro hci ht
    cases haddr : a.address with
    | none => rw [haddr] at ht; simp [strTruthy] at ht
    | some addr =>
      rw [haddr] at ht
      refine ⟨addr, { a with contractInstance := some addr }, ?_⟩
      simp [airlineGetContractInstance, ht, hci, haddr]
  · intro ci h1 n hg
    by_cases ht : strTruthy h.address
    · cases hci : h.contractInstance with
      | some c =>
        simp only [hotelGetContractInstance, ht, hci, Bool.not_true,
          Bool.false_eq_true, if_false] at hg
        have h1eq : (Except.ok c : Except JsError String) = .ok ci :=
          congrArg Prod.fst hg
        have h2eq : h = h1 := congrArg (fun t => t.2.1) hg
        have h3eq : (0 : Nat) = n := congrArg (fun t => t.2.2) hg
        injection h1eq with hc
        subst h2eq h3eq hc
        constructor
        · omega
        · simp [hotelGetContractInstance, ht, hci]
      | none =>
        cases haddr : h.address with
        | none => rw [haddr] at ht; simp [strTruthy] at ht
        | some addr =>
          rw [haddr] at ht
          simp only [hotelGetContractInstance, ht, hci, haddr, Bool.not_true,
            Bool.false_eq_true, if_false] at hg
          have h1eq : (Except.ok addr : Except JsError String) = .ok ci :=
            congrArg Prod.fst hg
          have h2eq : OnChainHotel.mk (some addr) h._dataUri h._manager
              h._dataIndex (some addr) h.nextId = h1 :=
            congrArg (fun t => t.2.1) hg
          have h3eq : (1 : Nat) = n := congrArg (fun t => t.2.2) hg
          injection h1eq with hc
          subst h2eq h3eq hc
          constructor
          · omega
          · simp [hotelGetContractInstance, ht]
    · simp only [hotelGetContractInstance, ht] at hg
      exact absurd (congrArg Prod.fst hg) (by simp)
  · intro p h1 n hg
    cases hpi : h._dataIndex with
    | some q =>
      simp only [getDataIndex, hpi] at hg
      have h1eq : (Except.ok q : Except JsError StoragePointer) = .ok p :=
        congrArg Prod.fst hg
      have h2eq : h = h1 := congrArg (fun t => t.2.1) hg
      have h3eq : (0 : Nat) = n := congrArg (fun t => t.2.2) hg
      injection h1eq with hq
      subst h2eq h3eq hq
      constructor
      · omega
      · simp [getDataIndex, hpi]
    | none =>
      cases hu : dataUriValue h with
      | none =>
        simp only [getDataIndex, hpi, hu] at hg
        exact absurd (congrArg Prod.fst hg) (by simp)
      | some uri =>
        simp only [getDataIndex, hpi, hu] at hg
        have h1eq : (Except.ok (⟨uri, false, h.nextId⟩ : StoragePointer)
            : Except JsError StoragePointer) = .ok p := congrArg Prod.fst hg
        have h2eq : { h with
            _dataIndex := some ⟨uri, false, h.nextId⟩,
            nextId := h.nextId + 1 } = h1 := congrArg (fun t => t.2.1) hg
        have h3eq : (1 : Nat) = n := congrArg (fun t => t.2.2) hg
        injection h1eq with hq
        subst h2eq h3eq hq
        constructor
        · omega
        · simp [getDataIndex]

/-- The success shape of `set_dataUri`: with a truthy, well-formed value
the setter returns normally, drops `_dataIndex` exactly when the value
differs from the cached one, and stores the value. -/
theorem set_dataUri_ok (h : OnChainHotel) (v : Option String)
    (h1 : strTruthy v = true) (h2 : invalidUriFormat v = false) :
    set_dataUri h v =
      (.ok (), { h with
        _dataIndex := if v ≠ h._dataUri then none else h._dataIndex,
        _dataUri := v }) := by
  unfold set_dataUri
  rw [h1, h2]
  simp only [Bool.not_true, Bool.false_eq_true, if_false]
  by_cases h3 : v ≠ h._dataUri
  · rw [if_pos h3, if_pos h3]
  · rw [if_neg h3, if_neg h3]

/-- C7: A Storage Pointer's `ref` view always equals the URI it was
constructed with, independent of resolution state: resolving never
changes `ref`; for a hotel whose cached pointer was built over the
current `dataUri` (the invariant `DataIndexInv`, which holds for a
freshly loaded hotel and is preserved by `dataUri` writes), a `dataIndex`
access yields a pointer with `ref` equal to `await hotel.dataUri`, and
the same equality holds after the pointer's contents are resolved. -/
theorem claim7_ref_equals_constructed_uri (h : OnChainHotel)
    (hinv : DataIndexInv h) :
    (∀ q : StoragePointer, (resolveStoragePointer q).ref = q.ref)
    ∧ (∀ (p : StoragePointer) (h1 : OnChainHotel) (n : Nat),
        getDataIndex h = (.ok p, h1, n) →
          h1._dataUri = some p.ref ∧ dataUriValue h1 = some p.ref
          ∧ DataIndexInv h1
          ∧ (∀ (p2 : StoragePointer) (h2 : OnChainHotel) (n2 : Nat),
              getDataIndex (resolveStoredDataIndex h1) = (.ok p2, h2, n2) →
                p2.ref = p.ref ∧ p2.resolvedContents = true ∧ n2 = 0))
    ∧ (∀ v : Option String, DataIndexInv (set_dataUri h v).2)
    ∧ (∀ h0 : OnChainHotel, h0._dataIndex = none → DataIndexInv h0) := by
  refine ⟨fun q => rfl, ?_, ?_, ?_⟩
  · intro p h1 n hg
    have key : h1._dataIndex = some p ∧ h1._dataUri = some p.ref
        ∧ ¬ p.ref.isEmpty := by
      cases hpi : h._dataIndex with
      | some q =>
        simp only [getDataIndex, hpi] at hg
        have h1eq : (Except.ok q : Except JsError StoragePointer) = .ok p :=
          congrArg Prod.fst hg
        have h2eq : h = h1 := congrArg (fun t => t.2.1) hg
        injection h1eq with hq
        subst h2eq hq
        obtain ⟨hu, hne⟩ := hinv q hpi
        exact ⟨hpi, hu, hne⟩
      | none =>
        cases hu : dataUriValue h with
        | none =>
          simp only [getDataIndex, hpi, hu] at hg
          exact absurd (congrArg Prod.fst hg) (by simp)
        | some uri =>
          simp only [getDataIndex, hpi, hu] at hg
          have h1eq : (Except.ok (⟨uri, false, h.nextId⟩ : StoragePointer)
              : Except JsError StoragePointer) = .ok p := congrArg Prod.fst hg
          have h2eq : OnChainHotel.mk h.address h._dataUri h._manager
              (some ⟨uri, false, h.nextId⟩) h.contractInstance (h.nextId + 1)
              = h1 := congrArg (fun t => t.2.1) hg
          injection h1eq with hq
          subst h2eq hq
          have huri : h._dataUri = some uri ∧ ¬ uri.isEmpty := by
            unfold dataUriValue at hu
            by_cases htr : strTruthy h._dataUri
            · rw [if_pos htr] at hu
              refine ⟨hu, ?_⟩
              rw [hu] at htr
              simpa [strTruthy] using htr
            · rw [if_neg htr] at hu
              exact Option.noConfusion hu
          exact ⟨rfl, huri.1, huri.2⟩
    obtain ⟨hpi1, hu1, hne1⟩ := key
    refine ⟨hu1, by simp [dataUriValue, hu1, strTruthy, hne1], ?_, ?_⟩
    · intro q hq
      rw [hpi1] at hq
      injection hq with hq
      subst hq
      exact ⟨hu1, hne1⟩
    · intro p2 h2 n2 hg2
      simp only [resolveStoredDataIndex, hpi1, getDataIndex] at hg2
      have h1eq : (Except.ok (resolveStoragePointer p)
          : Except JsError StoragePointer) = .ok p2 := congrArg Prod.fst hg2
      have h3eq : (0 : Nat) = n2 := congrArg (fun t => t.2.2) hg2
      injection h1eq with hp2
      subst hp2 h3eq
      exact ⟨rfl, rfl, rfl⟩
  · intro v q hq
    by_cases h1 : strTruthy v
    · by_cases h2 : invalidUriFormat v
      · have hset : (set_dataUri h v).2 = h := by simp [set_dataUri, h1, h2]
        rw [hset] at hq ⊢
        exact hinv q hq
      · have hok := set_dataUri_ok h v h1 (by simp [h2])
        rw [hok] at hq ⊢
        dsimp only at hq ⊢
        by_cases h3 : v ≠ h._dataUri
        · rw [if_pos h3] at hq
          exact Option.noConfusion hq
        · rw [if_neg h3] at hq
          obtain ⟨hu, hne⟩ := hinv q hq
          have hv : v = h._dataUri := not_not.mp h3
          exact ⟨hv.trans hu, hne⟩
    · have hset : (set_dataUri h v).2 = h := by simp [set_dataUri, h1]
      rw [hset] at hq ⊢
      exact hinv q hq
  · intro h0 hnone q hq
    rw [hnone] at hq
    exact Option.noConfusion hq

/-- C1: For every `RemotelyBackedDataset`-backed airline whose lifecycle
state is not `Deployed` (in particular one constructed without an
address), the commit operation `updateOnChainData` and the destroy
operation `removeOnChainData` fail fast with an error, invoke no remote
setter (invocation count 0) and produce no prepared-operation
descriptor. -/
theorem claim1_commit_and_destroy_fail_fast_when_not_deployed
    (a : OnChainAirline) (hnd : a.dataset.state ≠ .deployed) :
    (∃ e, updateOnChainData a = (.error e, 0))
    ∧ (∃ e, removeOnChainData a = .error e) := by
  constructor
  · by_cases ht : strTruthy a.address
    · cases hci : a.contractInstance with
      | some c =>
        refine ⟨.notDeployedError, ?_⟩
        have hup : updateRemoteData a.dataset = .error .notDeployedError := by
          simp [updateRemoteData, hnd]
        simp [updateOnChainData, airlineGetContractInstance, ht, hci, hup]
      | none =>
        cases haddr : a.address with
        | none => rw [haddr] at ht; simp [strTruthy] at ht
        | some addr =>
          rw [haddr] at ht
          refine ⟨.notDeployedError, ?_⟩
          have hup : updateRemoteData a.dataset = .error .notDeployedError := by
            simp [updateRemoteData, hnd]
          simp [updateOnChainData, airlineGetContractInstance, ht, hci, haddr, hup]
    · refine ⟨.smartContractInstantiationError
        "Cannot get airline instance without address", ?_⟩
      simp [updateOnChainData, airlineGetContractInstance, ht]
  · refine ⟨.smartContractInstantiationError "Cannot remove airline: not deployed", ?_⟩
    simp [removeOnChainData, hnd]

/-- C1 witness: an airline constructed without an address, with its
dataset still `NotDeployed` and both writable fields dirty. -/
theorem claim1_witness :
    (∃ e, updateOnChainData
      { address := none, contractInstance := none,
        dataset := { state := .notDeployed, fields :=
          [{ name := "_endpoint", value := some "e1", isDirty := true, setterId := some 3 },
           { name := "_manager", value := none, isDirty := false, setterId := none },
           { name := "_token", value := some "t1", isDirty := true, setterId := some 3 }] } }
      = (.error e, 0))
    ∧ (∃ e, removeOnChainData
      { address := none, contractInstance := none,
        dataset := { state := .notDeployed, fields :=
          [{ name := "_endpoint", value := some "e1", isDirty := true, setterId := some 3 },
           { name := "_manager", value := none, isDirty := false, setterId := none },
           { name := "_token", value := some "t1", isDirty := true, setterId := some 3 }] } }
      = .error e) :=
  claim1_commit_and_destroy_fail_fast_when_not_deployed _ (by decide)

/-- C2 (code bug): `initialize` binds `this._editInfoOnChain` as the
remote setter of `_endpoint` and `_token`, but the class defines no
method of that name (the editInfo setter is `_editEndpointOnChain`), so
`createInstance` throws a `TypeError` while evaluating the `fields`
literal and no commit can ever invoke the shared setter. -/
theorem claim2_initialize_binds_missing_method :
    airlineCreateInstance (some "0xbf18b616ac81830dd0c5d4b771f22fd8144fe769")
      = .error (.typeError
        "Cannot read property bind of undefined: this._editInfoOnChain")
    ∧ "_editInfoOnChain" ∉ onChainAirlineMethodNames
    ∧ "_editEndpointOnChain" ∈ onChainAirlineMethodNames := by
  refine ⟨?_, by decide, by decide⟩
  rfl

/-- C3 (code bug): on a deployed airline, assigning a non-empty string to
`endpoint` throws `InputDataError` ("... must be string") because the
`typeof` guard is inverted, and assigning a non-empty string to `token`
throws for the same reason (with the assignment unreachable), so the
local write never succeeds, caches nothing and marks nothing dirty. -/
theorem claim3_string_writes_rejected :
    setEndpoint demoAirline (some "https://api.example.org/ndc")
      = (.error (.inputDataError
          "Cannot update airline: Cannot set endpoint with invalid type, must be string"),
         demoAirline)
    ∧ setToken demoAirline (some "token-one")
      = (.error (.inputDataError
          "Cannot update airline: Cannot set airline endpoint with invalid type, must be string"),
         demoAirline)
    ∧ (∀ s : String, ∀ st : LifecycleState, st ≠ .obsolete →
        (setEndpoint { demoAirline with
            dataset := { demoAirline.dataset with state := st } } (some s)).1.isOk
          = false) := by
  refine ⟨by rfl, by rfl, ?_⟩
  intro s st _
  by_cases hs : strTruthy (some s)
  · simp only [setEndpoint, hs, Bool.not_true, Bool.false_eq_true, if_false,
      Option.isSome_some, if_true]
    rfl
  · simp only [setEndpoint, hs, Bool.not_false, if_true]
    rfl

mutual

/-- Exhaustive materialization leaves no unresolved pointer (value form). -/
theorem pvalFullyResolved_resolveAllVal : ∀ v : JVal,
    pvalFullyResolved (resolveAllVal v) = true
  | .raw s => by simp [resolveAllVal, pvalFullyResolved]
  | .ptr u d => by
    simp only [resolveAllVal, pvalFullyResolved]
    exact pdocFullyResolved_resolveAllDoc d
termination_by v => sizeOf v

/-- Exhaustive materialization leaves no unresolved pointer (document
form). -/
theorem pdocFullyResolved_resolveAllDoc : ∀ d : List (String × JVal),
    pdocFullyResolved (resolveAllDoc d) = true
  | [] => by simp [resolveAllDoc, pdocFullyResolved]
  | (n, v) :: rest => by
    simp only [resolveAllDoc, pdocFullyResolved, Bool.and_eq_true]
    exact ⟨pvalFullyResolved_resolveAllVal v, pdocFullyResolved_resolveAllDoc rest⟩
termination_by d => sizeOf d

end

/-- `getDataIndex` never changes the `_manager` field or the address. -/
theorem getDataIndex_preserves_manager_address (h : OnChainHotel) :
    (getDataIndex h).2.1._manager = h._manager
    ∧ (getDataIndex h).2.1.address = h.address := by
  cases hpi : h._dataIndex with
  | some q => simp [getDataIndex, hpi]
  | none =>
    cases hu : dataUriValue h with
    | some uri => simp [getDataIndex, hpi, hu]
    | none => simp [getDataIndex, hpi, hu]

/-- C8: `toPlainObject` inlines the contents of exactly the nested Storage
Pointers lying on a requested path — `toPlainObject(['a'])` on
`{a: ptrA, b: ptrB}` inlines `a` fully and leaves `b` as an unresolved
`{ref, ...}` pointer object; a deeper path `x.y` inlines `x`, fully
resolves `y` below it and leaves the sibling `z` unresolved; omitting
`resolvedFields` materializes every declared pointer (no unresolved
pointer remains); and the plain-hotel result has only the keys
`manager`/`address`/`dataUri` (no `toPlainObject` method), with `manager`
and `address` equal to the entity's on-chain values. -/
theorem claim8_toPlainObject_selective_materialization :
    (∀ (uri uA uB : String) (dA dB : List (String × JVal)),
      spToPlainObject uri [("a", .ptr uA dA), ("b", .ptr uB dB)] (some ["a"])
        = .resolved uri
            [("a", .resolved uA (resolveAllDoc dA)), ("b", .unresolved uB)])
    ∧ (∀ (uri u1 u2 u3 : String) (d2 d3 : List (String × JVal)),
        spToPlainObject uri
            [("x", .ptr u1 [("y", .ptr u2 d2), ("z", .ptr u3 d3)])]
            (some ["x.y"])
          = .resolved uri
              [("x", .resolved u1
                [("y", .resolved u2 (resolveAllDoc d2)),
                 ("z", .unresolved u3)])])
    ∧ (∀ (uri : String) (doc : List (String × JVal)),
        spToPlainObject uri doc none = .resolved uri (resolveAllDoc doc))
    ∧ (∀ d : List (String × JVal), pdocFullyResolved (resolveAllDoc d) = true)
    ∧ "toPlainObject" ∉ plainHotelKeys
    ∧ (∀ (h : OnChainHotel) (doc : List (String × JVal))
         (rf : Option (List String)) (r : PlainHotel),
        hotelToPlainObject h doc rf = .ok r →
          r.manager = managerValue h ∧ r.address = h.address
          ∧ (∃ p h1 n, getDataIndex h = (.ok p, h1, n)
              ∧ r.dataUri = spToPlainObject p.ref doc rf)) := by
  refine ⟨?_, ?_, fun uri doc => rfl, pdocFullyResolved_resolveAllDoc,
    by decide, ?_⟩
  · intro uri uA uB dA dB
    have hsp : (["a"] : List String).map splitPath = [["a"]] := by decide
    have hpa : pathsFor "a" [["a"]] = [[]] := by decide
    have hpb : pathsFor "b" [["a"]] = [] := by decide
    have hany : ([[]] : List (List String)).any List.isEmpty = true := by decide
    simp only [spToPlainObject, hsp, toPlainDoc, toPlainEntry, hpa, hpb, hany,
      if_true]
  · intro uri u1 u2 u3 d2 d3
    have hsp : (["x.y"] : List String).map splitPath = [["x", "y"]] := by decide
    have hpx : pathsFor "x" [["x", "y"]] = [["y"]] := by decide
    have hanyx : ([["y"]] : List (List String)).any List.isEmpty = false := by
      decide
    have hpy : pathsFor "y" [["y"]] = [[]] := by decide
    have hpz : pathsFor "z" [["y"]] = [] := by decide
    have hany : ([[]] : List (List String)).any List.isEmpty = true := by decide
    simp only [spToPlainObject, hsp, toPlainDoc, toPlainEntry, hpx, hanyx,
      Bool.false_eq_true, if_false, hpy, hpz, hany, if_true]
  · intro h doc rf r hr
    rcases hg : getDataIndex h with ⟨res, h1, n⟩
    rw [hotelToPlainObject, hg] at hr
    cases res with
    | error e => exact Except.noConfusion hr
    | ok p =>
      injection hr with hr
      subst hr
      have hpres := getDataIndex_preserves_manager_address h
      rw [hg] at hpres
      have hm : h1._manager = h._manager := hpres.1
      have ha : h1.address = h.address := hpres.2
      refine ⟨?_, ha, p, h1, n, rfl, rfl⟩
      simp only [managerValue, hm]

/-- C4 witness: the loaded demo hotel, re-pointed at a fresh in-memory
URI. -/
theorem claim4_witness :
    ((set_dataUri demoHotel (some "in-memory://another-url")).1 = .ok ()
      ∧ (set_dataUri demoHotel (some "in-memory://another-url")).2._dataIndex = none
      ∧ (set_dataUri demoHotel (some "in-memory://another-url")).2._dataUri
          = some "in-memory://another-url")
    ∧ (∀ (p : StoragePointer) (h2 : OnChainHotel) (n : Nat),
        getDataIndex (set_dataUri demoHotel (some "in-memory://another-url")).2
            = (.ok p, h2, n) →
          p.ref = "in-memory://another-url" ∧ n = 1 ∧ p.resolvedContents = false
          ∧ (∀ p0 : StoragePointer, demoHotel._dataIndex = some p0 →
              p0.instanceId < demoHotel.nextId → p ≠ p0))
    ∧ (∀ u : String, demoHotel._dataUri = some u → matchesUriRegex u = true →
        (set_dataUri demoHotel (some u)).1 = .ok ()
        ∧ (set_dataUri demoHotel (some u)).2._dataIndex = demoHotel._dataIndex) :=
  claim4_dataUri_write_invalidates_dataIndex demoHotel "in-memory://another-url"
    (by decide) (by decide)

/-- C7 witness: the loaded demo hotel, whose cached pointer was built over
its current dataUri. -/
theorem claim7_witness :
    (∀ q : StoragePointer, (resolveStoragePointer q).ref = q.ref)
    ∧ (∀ (p : StoragePointer) (h1 : OnChainHotel) (n : Nat),
        getDataIndex demoHotel = (.ok p, h1, n) →
          h1._dataUri = some p.ref ∧ dataUriValue h1 = some p.ref
          ∧ DataIndexInv h1
          ∧ (∀ (p2 : StoragePointer) (h2 : OnChainHotel) (n2 : Nat),
              getDataIndex (resolveStoredDataIndex h1) = (.ok p2, h2, n2) →
                p2.ref = p.ref ∧ p2.resolvedContents = true ∧ n2 = 0))
    ∧ (∀ v : Option String, DataIndexInv (set_dataUri demoHotel v).2)
    ∧ (∀ h0 : OnChainHotel, h0._dataIndex = none → DataIndexInv h0) :=
  claim7_ref_equals_constructed_uri demoHotel (by
    intro p hp
    injection hp with hp
    subst hp
    exact ⟨rfl, by decide⟩)

end WtJsLibs
